import Mathlib

/-!
Verification development for the insurance interpretation backend
(`insurance_project`): a shallow embedding of the task store
(`core/database.py`), the task lifecycle service (`core/form_service.py`),
the submission endpoint (`api/views.py`) and the asynchronous worker
(`api/tasks.py`), together with proofs of the lifecycle / store properties
stated in the specification.

The store is the single MySQL table `form_data`; we model its visible
state as a list of rows in insertion order.  The `create_time` column
(filled by a DB default, never written or read by any of the operations
verified here) and the surrogate `id` column are omitted.
-/

/-- One row of the `form_data` table (`database.py`, `CREATE_TABLE_SQL`).
`llm_content` is the worker-written result blob (the spec's
`result_content`); `update_content` is the client-edited blob (the spec's
`edited_content`), `NULL` until the first client edit. -/
structure Row where
  task_id : String
  task_name : String
  company : String
  scene : String
  progress : String
  status : String
  llm_content : String
  update_content : Option String
deriving Repr, DecidableEq

/-- Whitespace test used by Python's `str.strip` (restricted to the ASCII
whitespace characters, which are the only ones arising here). -/
def isWS (c : Char) : Bool :=
  c.isWhitespace

/-- Strip leading and trailing whitespace from a character list. -/
def stripChars (l : List Char) : List Char :=
  ((l.dropWhile isWS).reverse.dropWhile isWS).reverse

/-- Python `str.strip()`. -/
def pyStrip (s : String) : String :=
  ⟨stripChars s.data⟩

/-- Python `str.lower()` (ASCII case folding). -/
def pyLower (s : String) : String :=
  ⟨s.data.map Char.toLower⟩

/-- Python `str.endswith(t)`. -/
def pyEndsWith (s t : String) : Bool :=
  t.data.isSuffixOf s.data

/-- Python truthiness of an optional form field: `None` and the empty
string are falsy. -/
def truthy : Option String → Bool
  | none => false
  | some s => !(s == "")

/-! ## SQL statement semantics (`core/database.py`)

Each definition below executes one of the module-level SQL constants of
`database.py` against the modelled table state.  Write statements return
the new table together with the affected-row count reported by the
driver. -/

/-- `INSERT_FORM_DATA`: append a new row; `update_content` is not in the
column list, so it starts as SQL `NULL`. -/
def insertFormData (db : List Row) (task_id task_name company scene progress status llm_content : String) : List Row :=
  db ++ [⟨task_id, task_name, company, scene, progress, status, llm_content, none⟩]

/-- The SET clause of `UPDATE_FORM_STATUS` applied to one row when its
`task_id` matches: overwrite `task_name, company, scene, progress,
status, llm_content`; `update_content` is not in the SET list. -/
def setStatusRow (task_id task_name company scene progress status llm_content : String) (r : Row) : Row :=
  if r.task_id = task_id then
    ⟨r.task_id, task_name, company, scene, progress, status, llm_content, r.update_content⟩
  else r

/-- `UPDATE_FORM_STATUS`: rewrite every row whose `task_id` matches (the
table has no uniqueness constraint, only an index). -/
def updateFormStatus (db : List Row) (task_id task_name company scene progress status llm_content : String) : List Row × Nat :=
  (db.map (setStatusRow task_id task_name company scene progress status llm_content),
   (db.filter fun r => r.task_id == task_id).length)

/-- The SET clause of `UPDATE_FORM_CONTENT` applied to one row: set only
`update_content` on a match. -/
def setContentRow (task_id uContent : String) (r : Row) : Row :=
  if r.task_id = task_id then
    ⟨r.task_id, r.task_name, r.company, r.scene, r.progress, r.status, r.llm_content, some uContent⟩
  else r

/-- `UPDATE_FORM_CONTENT`: set only `update_content` on matching rows. -/
def updateFormContent (db : List Row) (task_id uContent : String) : List Row × Nat :=
  (db.map (setContentRow task_id uContent),
   (db.filter fun r => r.task_id == task_id).length)

/-- `SELECT_FORM_BY_TASK_ID`: all rows whose `task_id` matches. -/
def selectFormByTaskId (db : List Row) (task_id : String) : List Row :=
  db.filter fun r => r.task_id == task_id

/-- `DELETE_FORM_BY_TASK_ID`: remove matching rows, report how many. -/
def deleteFormByTaskId (db : List Row) (task_id : String) : List Row × Nat :=
  (db.filter fun r => !(r.task_id == task_id),
   (db.filter fun r => r.task_id == task_id).length)

/-- `DELETE_FORM_BATCH`: `DELETE ... WHERE task_id IN task_ids`. -/
def deleteFormBatch (db : List Row) (task_ids : List String) : List Row × Nat :=
  (db.filter fun r => !(task_ids.contains r.task_id),
   (db.filter fun r => task_ids.contains r.task_id).length)

/-! ## Task lifecycle service (`core/form_service.py`)

Each static method of `FormDataService` becomes a function from the table
state to a result.  Methods that can raise (`update_task_status` rejects
an empty `task_id` with `ValueError`) return `Except`; raising DB errors
do not occur in the pure table model. -/

namespace FormDataService

/-- `FormDataService.create_form` (the returned `lastrowid` is unused by
every caller and dropped).  `llm_content or ''` turns `None` into `''`. -/
def create_form (db : List Row) (task_id task_name company scene progress status : String) (llm_content : Option String) : List Row :=
  insertFormData db task_id task_name company scene progress status (llm_content.getD "")

/-- `FormDataService.update_task_status`: rejects an empty or
whitespace-only `task_id`, strips it, then runs `UPDATE_FORM_STATUS`. -/
def update_task_status (db : List Row) (task_id task_name company scene progress status : String) (llm_content : Option String) : Except String (List Row × Nat) :=
  if task_id = "" ∨ pyStrip task_id = "" then
    Except.error ("Invalid task_id")
  else
    Except.ok (updateFormStatus db (pyStrip task_id) task_name company scene progress status (llm_content.getD ""))

/-- `FormDataService.update_content`: empty or whitespace-only `task_id`
short-circuits to 0 affected rows; otherwise runs `UPDATE_FORM_CONTENT`
on the stripped id. -/
def update_content (db : List Row) (task_id uContent : String) : List Row × Nat :=
  if task_id = "" ∨ pyStrip task_id = "" then (db, 0)
  else updateFormContent db (pyStrip task_id) uContent

/-- `FormDataService.get_form_by_task_id`: empty or whitespace-only id
gives `None`; otherwise `result[0] if result else None` on the stripped
id's select. -/
def get_form_by_task_id (db : List Row) (task_id : String) : Option Row :=
  if task_id = "" ∨ pyStrip task_id = "" then none
  else (selectFormByTaskId db (pyStrip task_id)).head?

/-- `FormDataService.delete_form`. -/
def delete_form (db : List Row) (task_id : String) : List Row × Nat :=
  if task_id = "" ∨ pyStrip task_id = "" then (db, 0)
  else deleteFormByTaskId db (pyStrip task_id)

/-- The list comprehension of `delete_forms_batch`: drop empty or
whitespace-only ids and strip the rest. -/
def validIds (task_ids : List String) : List String :=
  (task_ids.filter fun t => !(t == "" || pyStrip t == "")).map pyStrip

/-- `FormDataService.delete_forms_batch`: drop empty / whitespace-only
ids, strip the rest, and batch-delete; empty input or no valid id
short-circuits to 0. -/
def delete_forms_batch (db : List Row) (task_ids : List String) : List Row × Nat :=
  if task_ids = [] then (db, 0)
  else
    if validIds task_ids = [] then (db, 0)
    else deleteFormBatch db (validIds task_ids)

/-- `FormDataService.handle_task_start`: reset the existing row to
`progress=0%, status=解读中` ("interpreting", the pending label), or
create it.  Note the lookup uses the stripped id while `create_form`
inserts the raw id. -/
def handle_task_start (db : List Row) (task_id task_name company scene : String) : Except String (List Row) :=
  match get_form_by_task_id db task_id with
  | some _ =>
      (update_task_status db task_id task_name company scene "0%" "解读中" none).map Prod.fst
  | none =>
      Except.ok (create_form db task_id task_name company scene "0%" "解读中" none)

/-- `FormDataService.handle_task_progress`: `status=解读中`,
`progress` as given, `llm_content` defaulted (to `''`). -/
def handle_task_progress (db : List Row) (task_id task_name company scene progress : String) : Except String (List Row) :=
  (update_task_status db task_id task_name company scene progress "解读中" none).map Prod.fst

/-- `FormDataService.handle_task_success`: `status=完成` ("done"),
`progress=100%`, `llm_content` set to the result. -/
def handle_task_success (db : List Row) (task_id task_name company scene llm_content : String) : Except String (List Row) :=
  (update_task_status db task_id task_name company scene "100%" "完成" (some llm_content)).map Prod.fst

/-- `FormDataService.handle_task_error`: mark the existing row
`status=失败` ("failed") at the given progress, or create such a row. -/
def handle_task_error (db : List Row) (task_id task_name company scene progress : String) : Except String (List Row) :=
  match get_form_by_task_id db task_id with
  | some _ =>
      (update_task_status db task_id task_name company scene progress "失败" none).map Prod.fst
  | none =>
      Except.ok (create_form db task_id task_name company scene progress "失败" none)

end FormDataService

/-! ## Submission endpoint (`api/views.py`, `start_interpretation`)

The request carries the three form fields (absent = `None`), the
filename of the optional `pdf_file` upload and the filenames of the
`png_files` uploads.  The generated `task_id` (clock + random suffix)
and the outcome of `FormDataService.handle_task_start` against the real
store (which may raise) enter as parameters.  File persistence has no
observable effect on the responses verified here and is omitted, as is
the Celery-unavailable fallback branch (`views.py` lines 145-169), which
does not change the returned response. -/

/-- HTTP response as built by the view: status code plus the JSON body
fields that occur (`success`, `error`, `task_id`, `message`). -/
structure ApiResponse where
  statusCode : Nat
  success : Bool
  error : Option String
  task_id : Option String
  message : Option String
deriving Repr, DecidableEq

/-- A submission request: form fields and uploaded filenames. -/
structure SubmitRequest where
  task_name : Option String
  company : Option String
  scene : Option String
  pdf_file : Option String
  png_files : List String
deriving Repr, DecidableEq

/-- Outcome of the store's task-creation step inside the endpoint:
either `handle_task_start` returned normally or it raised. -/
inductive StartOutcome where
  | ok
  | dbError (msg : String)
deriving Repr, DecidableEq

/-- Allowed image extensions (`views.py` line 80). -/
def imgExtensions : List String :=
  [".png", ".jpg", ".jpeg"]

/-- A `png_files` upload fails the case-insensitive extension check. -/
def isBadImage (name : String) : Bool :=
  !(imgExtensions.any fun ext => pyEndsWith (pyLower name) ext)

/-- The PDF branch of the upload validation (`views.py` lines 65-70):
`Some response` means early `400` return. -/
def pdfCheck (pdf : Option String) : Option ApiResponse :=
  match pdf with
  | none => none
  | some name =>
      if pyEndsWith (pyLower name) ".pdf" then none
      else some ⟨400, false, some ("Contract file must be PDF format"), none, none⟩

/-- The image branch of the upload validation (`views.py` lines 73-86):
count cap, then the first offending file (the loop returns on it). -/
def imageCheck (pngs : List String) : Option ApiResponse :=
  if pngs.isEmpty then none
  else if pngs.length > 30 then
    some ⟨400, false, some ("Maximum 30 image files allowed"), none, none⟩
  else
    match pngs.find? isBadImage with
    | some name =>
        some ⟨400, false, some ("File " ++ name ++ " must be PNG, JPG, or JPEG format"), none, none⟩
    | none => none

/-- `start_interpretation` (`views.py` lines 24-175).  The
`handle_task_start` exception is caught, logged and swallowed
(lines 128-131), so both outcomes continue to the `202` response. -/
def start_interpretation (req : SubmitRequest) (task_id : String) (outcome : StartOutcome) : ApiResponse :=
  if !(truthy req.task_name && truthy req.company && truthy req.scene) then
    ⟨400, false, some ("Missing required fields: task_name, company, scene"), none, none⟩
  else if req.pdf_file.isNone && req.png_files.isEmpty then
    ⟨400, false, some ("Please upload either a contract file, or images, or both"), none, none⟩
  else
    match pdfCheck req.pdf_file with
    | some resp => resp
    | none =>
        match imageCheck req.png_files with
        | some resp => resp
        | none =>
            match outcome with
            | StartOutcome.ok =>
                ⟨202, true, none, some task_id, some ("Group order interpretation task started successfully")⟩
            | StartOutcome.dbError _ =>
                ⟨202, true, none, some task_id, some ("Group order interpretation task started successfully")⟩

/-! ## Worker task (`api/tasks.py`, `process_interpretation_task`)

The worker runs `total_steps = 10` simulated steps; step `step` reports
progress `int((step / total_steps) * 100)` followed by `%` — under IEEE
double arithmetic this is exactly `10 * step` for `1 ≤ step ≤ 10` — and
may then hit the synthetic random fault.  The fault injection point is a
parameter: `none` for a clean run, `some s` for a fault raised at step
`s` (after that step's progress update, matching `tasks.py` line 43).
The mock result payload (randomised JSON) enters as a parameter.  Celery
state is the attempt counter `retries` with `max_retries = 3`; the model
returns the scheduled action instead of raising into the queue, and also
returns the trace of progress strings reported via
`handle_task_progress`. -/

/-- What the worker hands back to the queue on exit
(`tasks.py` lines 111, 130-136). -/
inductive WorkerAction where
  | completed
  | retryScheduled (countdown : Nat)
  | finalFailure
deriving Repr, DecidableEq

/-- `max_retries` of the task decorator (`tasks.py` line 14). -/
def maxRetries : Nat := 3

/-- The progress string of step `step` out of 10:
`f-string int((step / total_steps) * 100) %`, exactly `10 * step` %. -/
def pct (step : Nat) : String :=
  toString (step * 10) ++ "%"

/-- Steps `1 .. k` of the worker loop: each reports its progress to the
lifecycle service; also accumulates the list of reported strings. -/
def runProgressSteps (db : List Row) (task_id task_name company scene : String) : Nat → Except String (List Row × List String)
  | 0 => Except.ok (db, [])
  | k + 1 => do
      let s ← runProgressSteps db task_id task_name company scene k
      let db2 ← FormDataService.handle_task_progress s.fst task_id task_name company scene (pct (k + 1))
      Except.ok (db2, s.snd ++ [pct (k + 1)])

/-- `process_interpretation_task` for one attempt.  A clean run
(`fault = none`) does all 10 steps then `handle_task_success` with the
mock payload; a faulted run stops after step `s`'s progress update, and
the except block recomputes `progress` from the local `step` (= `s`,
i.e. the same `pct s`), calls `handle_task_error`, and schedules a retry
with countdown `60 * 2 ^ retries` while `retries < max_retries`,
otherwise re-raises as final failure. -/
def process_interpretation_task (db : List Row) (retries : Nat) (task_id task_name company scene result : String) (fault : Option Nat) : Except String (List Row × WorkerAction × List String) :=
  match fault with
  | none => do
      let s ← runProgressSteps db task_id task_name company scene 10
      let db2 ← FormDataService.handle_task_success s.fst task_id task_name company scene result
      Except.ok (db2, WorkerAction.completed, s.snd)
  | some step => do
      let s ← runProgressSteps db task_id task_name company scene step
      let db2 ← FormDataService.handle_task_error s.fst task_id task_name company scene (pct step)
      if retries < maxRetries then
        Except.ok (db2, WorkerAction.retryScheduled (60 * 2 ^ retries), s.snd)
      else
        Except.ok (db2, WorkerAction.finalFailure, s.snd)

/-! ## Derived notions and basic lemmas -/

/-- The rows of the table whose `task_id` is `t` (in table order). -/
def rowsFor (db : List Row) (t : String) : List Row :=
  db.filter fun r => r.task_id == t

/-- Forget the client-edited field of a row (used to state that an
operation touches nothing but `update_content`). -/
def eraseEdit (r : Row) : Row :=
  ⟨r.task_id, r.task_name, r.company, r.scene, r.progress, r.status, r.llm_content, none⟩

/-- Numeric value of a progress string such as `"40%"`: the value of its
leading digits. -/
def pctToNat (s : String) : Nat :=
  (s.data.takeWhile Char.isDigit).foldl (fun n c => 10 * n + (c.toNat - 48)) 0

/-- A list of numbers is non-decreasing from each element to the next. -/
def nonDecreasing : List Nat → Bool
  | [] => true
  | [_] => true
  | a :: b :: l => decide (a ≤ b) && nonDecreasing (b :: l)

/-- The row a task's unique entry holds after `k` steps of the worker
loop (unchanged for `k = 0`). -/
def stepRow (tn c sc : String) (r : Row) (k : Nat) : Row :=
  if k = 0 then r
  else ⟨r.task_id, tn, c, sc, pct k, "解读中", "", r.update_content⟩

lemma dropWhile_head?_not {α} (p : α → Bool) :
    ∀ (l : List α) (a : α), (l.dropWhile p).head? = some a → p a = false := by
  intro l
  induction l with
  | nil => intro a h; simp [List.dropWhile] at h
  | cons x xs ih =>
      intro a h
      by_cases hx : p x
      · exact ih a (by simpa [List.dropWhile, hx] using h)
      · rw [List.dropWhile_cons_of_neg hx] at h
        cases h
        simpa using hx

lemma dropWhile_eq_self_of_head {α} (p : α → Bool) (l : List α)
    (h : ∀ a, l.head? = some a → p a = false) : l.dropWhile p = l := by
  cases l with
  | nil => rfl
  | cons x xs => exact List.dropWhile_cons_of_neg (by simpa using h x rfl)

lemma dropWhile_dropWhile {α} (p : α → Bool) (l : List α) :
    (l.dropWhile p).dropWhile p = l.dropWhile p :=
  dropWhile_eq_self_of_head p _ (fun a h => dropWhile_head?_not p l a h)

lemma getLast?_cons_ne {α} (a : α) (l : List α) (h : l ≠ []) :
    (a :: l).getLast? = l.getLast? := by
  cases l with
  | nil => exact absurd rfl h
  | cons b t => simp [List.getLast?_cons_cons]

lemma dropWhile_getLast? {α} (p : α → Bool) :
    ∀ l : List α, l.dropWhile p ≠ [] → (l.dropWhile p).getLast? = l.getLast? := by
  intro l
  induction l with
  | nil => intro h; simp [List.dropWhile] at h
  | cons x xs ih =>
      intro h
      by_cases hx : p x
      · rw [List.dropWhile_cons_of_pos hx] at h ⊢
        rw [ih h, getLast?_cons_ne _ _ ?_]
        intro hxs
        exact h (by simp [hxs, List.dropWhile])
      · rw [List.dropWhile_cons_of_neg hx]

lemma stripChars_idem (l : List Char) : stripChars (stripChars l) = stripChars l := by
  unfold stripChars
  set A := l.dropWhile isWS with hA
  set D := A.reverse.dropWhile isWS with hD
  have h1 : D.reverse.dropWhile isWS = D.reverse := by
    apply dropWhile_eq_self_of_head
    intro a ha
    rw [List.head?_reverse] at ha
    have hne : D ≠ [] := by
      intro h0; rw [h0] at ha; simp at ha
    have h2 : D.getLast? = A.reverse.getLast? := dropWhile_getLast? isWS A.reverse (hD ▸ hne)
    rw [h2, List.getLast?_reverse] at ha
    exact dropWhile_head?_not isWS l a (hA ▸ ha)
  rw [h1, List.reverse_reverse, hD, dropWhile_dropWhile]

lemma pyStrip_idem (s : String) : pyStrip (pyStrip s) = pyStrip s := by
  unfold pyStrip
  exact congrArg String.mk (stripChars_idem s.data)

lemma pyStrip_empty : pyStrip "" = "" := rfl

lemma pyStrip_eq_empty_of_empty {t : String} (h : t = "") : pyStrip t = "" := by
  rw [h]; rfl

/-- The validity guard of the service methods, as a single test. -/
lemma guard_iff (t : String) : (t = "" ∨ pyStrip t = "") ↔ pyStrip t = "" := by
  constructor
  · rintro (h | h)
    · exact pyStrip_eq_empty_of_empty h
    · exact h
  · exact fun h => Or.inr h

lemma rowsFor_nil (t : String) : rowsFor [] t = [] := rfl

lemma rowsFor_cons (r : Row) (db : List Row) (t : String) :
    rowsFor (r :: db) t = if r.task_id = t then r :: rowsFor db t else rowsFor db t := by
  by_cases h : r.task_id = t <;> simp [rowsFor, List.filter_cons, h]

lemma rowsFor_append (db l : List Row) (t : String) :
    rowsFor (db ++ l) t = rowsFor db t ++ rowsFor l t := by
  simp [rowsFor, List.filter_append]

lemma mem_rowsFor_task_id (db : List Row) (t : String) {r : Row}
    (h : r ∈ rowsFor db t) : r.task_id = t := by
  have := List.of_mem_filter h
  simpa using this

lemma setStatusRow_task_id (t tn c sc p st lc : String) (r : Row) :
    (setStatusRow t tn c sc p st lc r).task_id = r.task_id := by
  unfold setStatusRow; split <;> rfl

lemma setStatusRow_update_content (t tn c sc p st lc : String) (r : Row) :
    (setStatusRow t tn c sc p st lc r).update_content = r.update_content := by
  unfold setStatusRow; split <;> rfl

lemma setContentRow_task_id (t x : String) (r : Row) :
    (setContentRow t x r).task_id = r.task_id := by
  unfold setContentRow; split <;> rfl

lemma setContentRow_eraseEdit (t x : String) (r : Row) :
    eraseEdit (setContentRow t x r) = eraseEdit r := by
  unfold setContentRow eraseEdit; split <;> rfl

/-- A status update rewrites exactly the rows selected by its key. -/
lemma rowsFor_map_setStatusRow (db : List Row) (t tn c sc p st lc : String) :
    rowsFor (db.map (setStatusRow t tn c sc p st lc)) t
      = (rowsFor db t).map (setStatusRow t tn c sc p st lc) := by
  induction db with
  | nil => rfl
  | cons r db ih =>
      rw [List.map_cons, rowsFor_cons, rowsFor_cons]
      by_cases h : r.task_id = t
      · simp [setStatusRow_task_id, h, ih]
      · simp [setStatusRow_task_id, h, ih]

lemma rowsFor_map_setContentRow (db : List Row) (t x : String) :
    rowsFor (db.map (setContentRow t x)) t
      = (rowsFor db t).map (setContentRow t x) := by
  induction db with
  | nil => rfl
  | cons r db ih =>
      rw [List.map_cons, rowsFor_cons, rowsFor_cons]
      by_cases h : r.task_id = t
      · simp [setContentRow_task_id, h, ih]
      · simp [setContentRow_task_id, h, ih]

/-- On a matching row the status update yields the rewritten row. -/
lemma setStatusRow_of_match {t tn c sc p st lc : String} {r : Row} (h : r.task_id = t) :
    setStatusRow t tn c sc p st lc r
      = ⟨r.task_id, tn, c, sc, p, st, lc, r.update_content⟩ := by
  unfold setStatusRow; rw [if_pos h]

lemma setContentRow_of_match {t x : String} {r : Row} (h : r.task_id = t) :
    setContentRow t x r
      = ⟨r.task_id, r.task_name, r.company, r.scene, r.progress, r.status, r.llm_content, some x⟩ := by
  unfold setContentRow; rw [if_pos h]

/-- A status update keyed on an id no row carries leaves the table
unchanged. -/
lemma map_setStatusRow_of_rowsFor_nil {db : List Row} {t : String}
    (h : rowsFor db t = []) (tn c sc p st lc : String) :
    db.map (setStatusRow t tn c sc p st lc) = db := by
  have hall : ∀ r ∈ db, r.task_id ≠ t := by
    intro r hr
    intro heq
    have : r ∈ rowsFor db t := by
      simp [rowsFor, List.mem_filter, hr, heq]
    rw [h] at this
    simp at this
  calc db.map (setStatusRow t tn c sc p st lc)
      = db.map id := by
        apply List.map_congr_left
        intro r hr
        unfold setStatusRow
        rw [if_neg (hall r hr)]
        rfl
    _ = db := List.map_id db

/-- `rowsFor` of an insert. -/
lemma rowsFor_insert (db : List Row) (tid tn c sc p st lc t : String) :
    rowsFor (insertFormData db tid tn c sc p st lc) t
      = rowsFor db t ++ (if tid = t then [(⟨tid, tn, c, sc, p, st, lc, none⟩ : Row)] else []) := by
  unfold insertFormData
  rw [rowsFor_append]
  by_cases h : tid = t
  · simp [rowsFor, List.filter, beq_iff_eq, h]
  · have hb : (tid == t) = false := beq_eq_false_iff_ne.mpr h
    simp [rowsFor, List.filter, hb, h]

/-! ## Unfolding lemmas for the service layer -/

lemma update_task_status_of_valid (db : List Row) (tid tn c sc p st : String) (lc : Option String)
    (h : pyStrip tid ≠ "") :
    FormDataService.update_task_status db tid tn c sc p st lc
      = Except.ok (updateFormStatus db (pyStrip tid) tn c sc p st (lc.getD "")) := by
  unfold FormDataService.update_task_status
  rw [if_neg (fun hc => h ((guard_iff tid).mp hc))]

lemma get_form_of_valid (db : List Row) (tid : String) (h : pyStrip tid ≠ "") :
    FormDataService.get_form_by_task_id db tid = (rowsFor db (pyStrip tid)).head? := by
  unfold FormDataService.get_form_by_task_id
  rw [if_neg (fun hc => h ((guard_iff tid).mp hc))]
  rfl

lemma handle_task_progress_of_valid (db : List Row) (tid tn c sc p : String)
    (h : pyStrip tid ≠ "") :
    FormDataService.handle_task_progress db tid tn c sc p
      = Except.ok (db.map (setStatusRow (pyStrip tid) tn c sc p ("解读中") "")) := by
  unfold FormDataService.handle_task_progress
  rw [update_task_status_of_valid db tid tn c sc p ("解读中") none h]
  rfl

lemma handle_task_success_of_valid (db : List Row) (tid tn c sc res : String)
    (h : pyStrip tid ≠ "") :
    FormDataService.handle_task_success db tid tn c sc res
      = Except.ok (db.map (setStatusRow (pyStrip tid) tn c sc "100%" ("完成") res)) := by
  unfold FormDataService.handle_task_success
  rw [update_task_status_of_valid db tid tn c sc "100%" ("完成") (some res) h]
  rfl

lemma handle_task_start_of_exists (db : List Row) (tid tn c sc : String)
    (h : pyStrip tid ≠ "") (hx : rowsFor db (pyStrip tid) ≠ []) :
    FormDataService.handle_task_start db tid tn c sc
      = Except.ok (db.map (setStatusRow (pyStrip tid) tn c sc "0%" ("解读中") "")) := by
  unfold FormDataService.handle_task_start
  rw [get_form_of_valid db tid h]
  cases hr : rowsFor db (pyStrip tid) with
  | nil => exact absurd hr hx
  | cons r rest =>
      simp only [List.head?_cons]
      rw [update_task_status_of_valid db tid tn c sc "0%" ("解读中") none h]
      rfl

lemma handle_task_start_of_absent (db : List Row) (tid tn c sc : String)
    (h : pyStrip tid ≠ "") (hx : rowsFor db (pyStrip tid) = []) :
    FormDataService.handle_task_start db tid tn c sc
      = Except.ok (insertFormData db tid tn c sc "0%" ("解读中") "") := by
  unfold FormDataService.handle_task_start
  rw [get_form_of_valid db tid h, hx]
  rfl

lemma handle_task_error_of_exists (db : List Row) (tid tn c sc p : String)
    (h : pyStrip tid ≠ "") (hx : rowsFor db (pyStrip tid) ≠ []) :
    FormDataService.handle_task_error db tid tn c sc p
      = Except.ok (db.map (setStatusRow (pyStrip tid) tn c sc p ("失败") "")) := by
  unfold FormDataService.handle_task_error
  rw [get_form_of_valid db tid h]
  cases hr : rowsFor db (pyStrip tid) with
  | nil => exact absurd hr hx
  | cons r rest =>
      simp only [List.head?_cons]
      rw [update_task_status_of_valid db tid tn c sc p ("失败") none h]
      rfl

lemma handle_task_error_of_absent (db : List Row) (tid tn c sc p : String)
    (h : pyStrip tid ≠ "") (hx : rowsFor db (pyStrip tid) = []) :
    FormDataService.handle_task_error db tid tn c sc p
      = Except.ok (insertFormData db tid tn c sc p ("失败") "") := by
  unfold FormDataService.handle_task_error
  rw [get_form_of_valid db tid h, hx]
  rfl

/-! ## The worker loop -/

lemma exceptBind_ok {ε α β : Type} (a : α) (f : α → Except ε β) :
    (Except.ok a >>= f : Except ε β) = f a := rfl

/-- A run over a table holding no row for the task id reports all its
progress but changes nothing. -/
lemma runProgressSteps_of_absent (db : List Row) (tid tn c sc : String)
    (h : pyStrip tid ≠ "") (h0 : rowsFor db (pyStrip tid) = []) :
    ∀ k, runProgressSteps db tid tn c sc k
      = Except.ok (db, (List.range k).map fun i => pct (i + 1)) := by
  intro k
  induction k with
  | zero => simp [runProgressSteps]
  | succ k ih =>
      unfold runProgressSteps
      rw [ih, exceptBind_ok]
      simp only
      rw [handle_task_progress_of_valid db tid tn c sc (pct (k + 1)) h]
      rw [map_setStatusRow_of_rowsFor_nil h0, exceptBind_ok]
      simp [List.range_succ]

/-- A run over a table holding exactly one row for the task id reports
all its progress and leaves that row at the progress of the last step
performed, with `update_content` untouched. -/
lemma runProgressSteps_of_single (db : List Row) (tid tn c sc : String) (r : Row)
    (h : pyStrip tid ≠ "") (h0 : rowsFor db (pyStrip tid) = [r]) :
    ∀ k, ∃ db', runProgressSteps db tid tn c sc k
        = Except.ok (db', (List.range k).map fun i => pct (i + 1))
      ∧ rowsFor db' (pyStrip tid) = [stepRow tn c sc r k] := by
  have hrid : r.task_id = pyStrip tid := by
    apply mem_rowsFor_task_id db (pyStrip tid)
    rw [h0]; exact List.mem_singleton.mpr rfl
  intro k
  induction k with
  | zero =>
      refine ⟨db, by simp [runProgressSteps], ?_⟩
      rw [h0]; rfl
  | succ k ih =>
      obtain ⟨db', hrun, hrows⟩ := ih
      refine ⟨db'.map (setStatusRow (pyStrip tid) tn c sc (pct (k + 1)) ("解读中") ""), ?_, ?_⟩
      · unfold runProgressSteps
        rw [hrun, exceptBind_ok]
        simp only
        rw [handle_task_progress_of_valid db' tid tn c sc (pct (k + 1)) h, exceptBind_ok]
        simp [List.range_succ]
      · rw [rowsFor_map_setStatusRow, hrows]
        have hsid : (stepRow tn c sc r k).task_id = pyStrip tid := by
          unfold stepRow; split <;> simpa using hrid
        have huc : (stepRow tn c sc r k).update_content = r.update_content := by
          unfold stepRow; split <;> rfl
        rw [List.map_singleton, setStatusRow_of_match hsid, huc, hsid, ← hrid]
        unfold stepRow
        rw [if_neg (Nat.succ_ne_zero k)]

/-! ## Claim theorems -/

lemma take_map_uc_append (db l : List Row) :
    (((db ++ l).map fun r => r.update_content).take db.length)
      = db.map fun r => r.update_content := by
  rw [List.map_append]
  have h : db.length = (db.map fun r => r.update_content).length := (List.length_map _ _).symm
  rw [h, List.take_left]

lemma map_uc_map (db : List Row) (f : Row → Row)
    (hf : ∀ r, (f r).update_content = r.update_content) :
    ((db.map f).map fun r => r.update_content) = db.map fun r => r.update_content := by
  rw [List.map_map]
  exact List.map_congr_left (fun r _ => hf r)

/-- C1 (corrected): the progress transition sets `status` to the
processing label `解读中` and `progress` to the given percentage, leaves
`update_content` and `task_id` of every row unchanged and every
non-matching row entirely unchanged — but it does not leave
`llm_content` (`result_content`) unchanged: `UPDATE_FORM_STATUS` always
writes `llm_content`, and `handle_task_progress` passes the default,
so the field is reset to the empty string. -/
theorem claim_C1 (db : List Row) (tid tn c sc p : String) (h : pyStrip tid ≠ "") :
    ∃ db', FormDataService.handle_task_progress db tid tn c sc p = Except.ok db'
      ∧ db'.length = db.length
      ∧ ∀ i (hi : i < db.length) (hi' : i < db'.length),
          ((db.get ⟨i, hi⟩).task_id ≠ pyStrip tid → db'.get ⟨i, hi'⟩ = db.get ⟨i, hi⟩)
          ∧ ((db.get ⟨i, hi⟩).task_id = pyStrip tid →
              (db'.get ⟨i, hi'⟩).status = "解读中"
              ∧ (db'.get ⟨i, hi'⟩).progress = p
              ∧ (db'.get ⟨i, hi'⟩).llm_content = ""
              ∧ (db'.get ⟨i, hi'⟩).update_content = (db.get ⟨i, hi⟩).update_content
              ∧ (db'.get ⟨i, hi'⟩).task_id = (db.get ⟨i, hi⟩).task_id) := by
  refine ⟨db.map (setStatusRow (pyStrip tid) tn c sc p ("解读中") ""),
    handle_task_progress_of_valid db tid tn c sc p h, by simp, ?_⟩
  intro i hi hi'
  have hget : (db.map (setStatusRow (pyStrip tid) tn c sc p ("解读中") "")).get ⟨i, hi'⟩
      = setStatusRow (pyStrip tid) tn c sc p ("解读中") "" (db.get ⟨i, hi⟩) := by
    simp [List.get_eq_getElem, List.getElem_map]
  constructor
  · intro hne
    rw [hget]
    unfold setStatusRow
    rw [if_neg hne]
  · intro heq
    rw [hget, setStatusRow_of_match heq]
    exact ⟨rfl, rfl, rfl, rfl, rfl⟩

/-- C1 counterexample: a row whose `llm_content` is `"RESULT"` loses it
(the field becomes `""`) under `handle_task_progress`, so the claim that
the progress transition leaves `result_content` unchanged is false. -/
theorem claim_C1_counterexample :
    FormDataService.handle_task_progress
        [⟨"T1", "n", "c", "s", "10%", "解读中", "RESULT", none⟩] "T1" "n" "c" "s" "50%"
      = Except.ok [⟨"T1", "n", "c", "s", "50%", "解读中", "", none⟩]
    ∧ ("" : String) ≠ "RESULT" := by
  exact ⟨rfl, by decide⟩

/-- C1 witness. -/
theorem claim_C1_witness :
    pyStrip "T1" ≠ ""
    ∧ ∃ db', FormDataService.handle_task_progress
          [⟨"T1", "n", "c", "s", "10%", "解读中", "R", some "E"⟩] "T1" "n" "c" "s" "50%"
        = Except.ok db'
      ∧ db'.length = [(⟨"T1", "n", "c", "s", "10%", "解读中", "R", some "E"⟩ : Row)].length
      ∧ ∀ i (hi : i < [(⟨"T1", "n", "c", "s", "10%", "解读中", "R", some "E"⟩ : Row)].length)
          (hi' : i < db'.length),
          (([(⟨"T1", "n", "c", "s", "10%", "解读中", "R", some "E"⟩ : Row)].get ⟨i, hi⟩).task_id ≠ pyStrip "T1" →
            db'.get ⟨i, hi'⟩ = [(⟨"T1", "n", "c", "s", "10%", "解读中", "R", some "E"⟩ : Row)].get ⟨i, hi⟩)
          ∧ (([(⟨"T1", "n", "c", "s", "10%", "解读中", "R", some "E"⟩ : Row)].get ⟨i, hi⟩).task_id = pyStrip "T1" →
              (db'.get ⟨i, hi'⟩).status = "解读中"
              ∧ (db'.get ⟨i, hi'⟩).progress = "50%"
              ∧ (db'.get ⟨i, hi'⟩).llm_content = ""
              ∧ (db'.get ⟨i, hi'⟩).update_content
                  = ([(⟨"T1", "n", "c", "s", "10%", "解读中", "R", some "E"⟩ : Row)].get ⟨i, hi⟩).update_content
              ∧ (db'.get ⟨i, hi'⟩).task_id
                  = ([(⟨"T1", "n", "c", "s", "10%", "解读中", "R", some "E"⟩ : Row)].get ⟨i, hi⟩).task_id) :=
  ⟨by decide, claim_C1 [⟨"T1", "n", "c", "s", "10%", "解读中", "R", some "E"⟩] "T1" "n" "c" "s" "50%" (by decide)⟩

/-- C2 (confirmed): no lifecycle transition (start, progress, success,
error) changes the `update_content` (`edited_content`) of any
pre-existing row — the positions of the original table keep their
`update_content` — and the client edit `update_content` changes nothing
except that field (every row is unchanged under `eraseEdit`, and the
table keeps its length). -/
theorem claim_C2 (db : List Row) (tid tn c sc p res content : String) :
    (∀ db1, FormDataService.handle_task_start db tid tn c sc = Except.ok db1 →
      ((db1.map fun r => r.update_content).take db.length) = db.map fun r => r.update_content)
    ∧ (∀ db1, FormDataService.handle_task_progress db tid tn c sc p = Except.ok db1 →
        (db1.map fun r => r.update_content) = db.map fun r => r.update_content)
    ∧ (∀ db1, FormDataService.handle_task_success db tid tn c sc res = Except.ok db1 →
        (db1.map fun r => r.update_content) = db.map fun r => r.update_content)
    ∧ (∀ db1, FormDataService.handle_task_error db tid tn c sc p = Except.ok db1 →
        ((db1.map fun r => r.update_content).take db.length) = db.map fun r => r.update_content)
    ∧ ((FormDataService.update_content db tid content).fst.map eraseEdit = db.map eraseEdit
        ∧ (FormDataService.update_content db tid content).fst.length = db.length) := by
  have hmapuc : ∀ (t' tn' c' sc' p' st' lc' : String),
      ((db.map (setStatusRow t' tn' c' sc' p' st' lc')).map fun r => r.update_content)
        = db.map fun r => r.update_content := by
    intro t' tn' c' sc' p' st' lc'
    exact map_uc_map db _ (setStatusRow_update_content t' tn' c' sc' p' st' lc')
  have htakeself : ((db.map fun r => r.update_content).take db.length)
      = db.map fun r => r.update_content := by
    have h : db.length = (db.map fun r => r.update_content).length := (List.length_map _ _).symm
    rw [h, List.take_length]
  refine ⟨?_, ?_, ?_, ?_, ?_, ?_⟩
  · intro db1 h1
    unfold FormDataService.handle_task_start at h1
    cases hg : FormDataService.get_form_by_task_id db tid with
    | some r =>
        rw [hg] at h1
        unfold FormDataService.update_task_status at h1
        by_cases hguard : tid = "" ∨ pyStrip tid = ""
        · rw [if_pos hguard] at h1; cases h1
        · rw [if_neg hguard] at h1
          cases h1
          unfold updateFormStatus
          rw [hmapuc, htakeself]
    | none =>
        rw [hg] at h1
        cases h1
        unfold FormDataService.create_form
        exact take_map_uc_append db _
  · intro db1 h1
    unfold FormDataService.handle_task_progress FormDataService.update_task_status at h1
    by_cases hguard : tid = "" ∨ pyStrip tid = ""
    · rw [if_pos hguard] at h1; cases h1
    · rw [if_neg hguard] at h1
      cases h1
      exact hmapuc _ _ _ _ _ _ _
  · intro db1 h1
    unfold FormDataService.handle_task_success FormDataService.update_task_status at h1
    by_cases hguard : tid = "" ∨ pyStrip tid = ""
    · rw [if_pos hguard] at h1; cases h1
    · rw [if_neg hguard] at h1
      cases h1
      exact hmapuc _ _ _ _ _ _ _
  · intro db1 h1
    unfold FormDataService.handle_task_error at h1
    cases hg : FormDataService.get_form_by_task_id db tid with
    | some r =>
        rw [hg] at h1
        unfold FormDataService.update_task_status at h1
        by_cases hguard : tid = "" ∨ pyStrip tid = ""
        · rw [if_pos hguard] at h1; cases h1
        · rw [if_neg hguard] at h1
          cases h1
          unfold updateFormStatus
          rw [hmapuc, htakeself]
    | none =>
        rw [hg] at h1
        cases h1
        unfold FormDataService.create_form
        exact take_map_uc_append db _
  · unfold FormDataService.update_content
    by_cases hguard : tid = "" ∨ pyStrip tid = ""
    · rw [if_pos hguard]
    · rw [if_neg hguard]
      unfold updateFormContent
      rw [List.map_map]
      exact List.map_congr_left (fun r _ => setContentRow_eraseEdit (pyStrip tid) content r)
  · unfold FormDataService.update_content
    by_cases hguard : tid = "" ∨ pyStrip tid = ""
    · rw [if_pos hguard]
    · rw [if_neg hguard]
      unfold updateFormContent
      simp

/-- C2 witness. -/
theorem claim_C2_witness :
    (([(⟨"T1", "n", "c", "s", "50%", "解读中", "", some "E"⟩ : Row)].map fun r => r.update_content)
        = [(⟨"T1", "n", "c", "s", "10%", "解读中", "R", some "E"⟩ : Row)].map fun r => r.update_content) :=
  ((claim_C2 [⟨"T1", "n", "c", "s", "10%", "解读中", "R", some "E"⟩] "T1" "n" "c" "s" "50%" "res" "edit").2.1
    [⟨"T1", "n", "c", "s", "50%", "解读中", "", some "E"⟩] rfl)

/-- C7 (confirmed): editing the content of an existing row and reading
the row back yields `update_content = X` with `llm_content` unchanged. -/
theorem claim_C7 (db : List Row) (tid x : String) (r : Row)
    (h : FormDataService.get_form_by_task_id db tid = some r) :
    ∃ r', FormDataService.get_form_by_task_id (FormDataService.update_content db tid x).fst tid = some r'
      ∧ r'.update_content = some x
      ∧ r'.llm_content = r.llm_content := by
  have hvalid : pyStrip tid ≠ "" := by
    intro h0
    unfold FormDataService.get_form_by_task_id at h
    rw [if_pos (Or.inr h0)] at h
    cases h
  rw [get_form_of_valid db tid hvalid] at h
  cases hr : rowsFor db (pyStrip tid) with
  | nil => rw [hr] at h; cases h
  | cons r0 rest =>
      rw [hr] at h
      simp only [List.head?_cons, Option.some.injEq] at h
      have hrid : r.task_id = pyStrip tid := by
        apply mem_rowsFor_task_id db (pyStrip tid)
        rw [hr, h]; exact List.mem_cons_self r rest
      have hupd : FormDataService.update_content db tid x
          = (db.map (setContentRow (pyStrip tid) x),
             (db.filter fun r0 => r0.task_id == pyStrip tid).length) := by
        unfold FormDataService.update_content
        rw [if_neg (fun hc => hvalid ((guard_iff tid).mp hc))]
        rfl
      refine ⟨setContentRow (pyStrip tid) x r, ?_, ?_, ?_⟩
      · rw [hupd]
        rw [get_form_of_valid _ tid hvalid, rowsFor_map_setContentRow, hr, h]
        rfl
      · rw [setContentRow_of_match hrid]
      · rw [setContentRow_of_match hrid]

/-- C7 witness. -/
theorem claim_C7_witness :
    ∃ r', FormDataService.get_form_by_task_id
        (FormDataService.update_content
          [⟨"T1", "n", "c", "s", "100%", "完成", "R", none⟩] "T1" "X").fst "T1" = some r'
      ∧ r'.update_content = some "X"
      ∧ r'.llm_content = (⟨"T1", "n", "c", "s", "100%", "完成", "R", none⟩ : Row).llm_content :=
  claim_C7 [⟨"T1", "n", "c", "s", "100%", "完成", "R", none⟩] "T1" "X"
    ⟨"T1", "n", "c", "s", "100%", "完成", "R", none⟩ rfl

lemma validIds_cons_invalid {t : String} (h : pyStrip t = "") (ids : List String) :
    FormDataService.validIds (t :: ids) = FormDataService.validIds ids := by
  unfold FormDataService.validIds
  simp [List.filter_cons, h]

lemma validIds_cons_valid {t : String} (h : pyStrip t ≠ "") (ids : List String) :
    FormDataService.validIds (t :: ids) = pyStrip t :: FormDataService.validIds ids := by
  have ht : t ≠ "" := by
    intro h0
    exact h (by rw [h0]; rfl)
  unfold FormDataService.validIds
  simp [List.filter_cons, ht, h]

/-- C10 (confirmed): every id-taking service operation short-circuits on
an empty or whitespace-only identifier (`None` / 0 affected rows, table
untouched, and a whitespace-only id inside a batch is simply dropped),
and otherwise operates on the stripped identifier, so an identifier with
surrounding whitespace addresses the same row as its stripped form. -/
theorem claim_C10 (db : List Row) (t x : String) (ids : List String) :
    (pyStrip t = "" →
      FormDataService.get_form_by_task_id db t = none
      ∧ FormDataService.update_content db t x = (db, 0)
      ∧ FormDataService.delete_form db t = (db, 0)
      ∧ FormDataService.delete_forms_batch db (t :: ids) = FormDataService.delete_forms_batch db ids)
    ∧ (pyStrip t ≠ "" →
      FormDataService.get_form_by_task_id db t = (selectFormByTaskId db (pyStrip t)).head?
      ∧ FormDataService.update_content db t x = updateFormContent db (pyStrip t) x
      ∧ FormDataService.delete_form db t = deleteFormByTaskId db (pyStrip t)
      ∧ FormDataService.delete_forms_batch db (t :: ids)
          = FormDataService.delete_forms_batch db (pyStrip t :: ids)) := by
  constructor
  · intro h
    refine ⟨?_, ?_, ?_, ?_⟩
    · unfold FormDataService.get_form_by_task_id
      rw [if_pos (Or.inr h)]
    · unfold FormDataService.update_content
      rw [if_pos (Or.inr h)]
    · unfold FormDataService.delete_form
      rw [if_pos (Or.inr h)]
    · unfold FormDataService.delete_forms_batch
      rw [if_neg (by simp : ¬(t :: ids = []))]
      rw [validIds_cons_invalid h ids]
      cases ids with
      | nil =>
          rw [if_pos rfl, if_pos (show FormDataService.validIds [] = [] from rfl)]
      | cons a l => rw [if_neg (by simp : ¬(a :: l = []))]
  · intro h
    have hguard : ¬(t = "" ∨ pyStrip t = "") := fun hc => h ((guard_iff t).mp hc)
    refine ⟨?_, ?_, ?_, ?_⟩
    · unfold FormDataService.get_form_by_task_id
      rw [if_neg hguard]
    · unfold FormDataService.update_content
      rw [if_neg hguard]
    · unfold FormDataService.delete_form
      rw [if_neg hguard]
    · unfold FormDataService.delete_forms_batch
      rw [if_neg (by simp : ¬(t :: ids = [])), if_neg (by simp : ¬(pyStrip t :: ids = []))]
      rw [validIds_cons_valid h ids]
      rw [validIds_cons_valid (by rw [pyStrip_idem]; exact h) ids]
      rw [pyStrip_idem]

/-- C10 witness. -/
theorem claim_C10_witness :
    FormDataService.get_form_by_task_id [⟨"T1", "n", "c", "s", "0%", "解读中", "", none⟩] " T1 "
        = (selectFormByTaskId [⟨"T1", "n", "c", "s", "0%", "解读中", "", none⟩] (pyStrip " T1 ")).head?
    ∧ FormDataService.update_content [⟨"T1", "n", "c", "s", "0%", "解读中", "", none⟩] " T1 " "X"
        = updateFormContent [⟨"T1", "n", "c", "s", "0%", "解读中", "", none⟩] (pyStrip " T1 ") "X"
    ∧ FormDataService.delete_form [⟨"T1", "n", "c", "s", "0%", "解读中", "", none⟩] " T1 "
        = deleteFormByTaskId [⟨"T1", "n", "c", "s", "0%", "解读中", "", none⟩] (pyStrip " T1 ")
    ∧ FormDataService.delete_forms_batch [⟨"T1", "n", "c", "s", "0%", "解读中", "", none⟩] (" T1 " :: [])
        = FormDataService.delete_forms_batch [⟨"T1", "n", "c", "s", "0%", "解读中", "", none⟩]
            (pyStrip " T1 " :: []) :=
  (claim_C10 [⟨"T1", "n", "c", "s", "0%", "解读中", "", none⟩] " T1 " "X" []).2 (by decide)

/-- C4 (confirmed): once a submission passes field and file validation,
the endpoint returns `202` with the generated task id even when the
store's task-creation step raised — the exception is swallowed
(`views.py` lines 128-131) — and the response is the same one a
successful creation yields. -/
theorem claim_C4 (req : SubmitRequest) (task_id msg : String)
    (h1 : truthy req.task_name = true) (h2 : truthy req.company = true)
    (h3 : truthy req.scene = true)
    (h4 : ¬(req.pdf_file = none ∧ req.png_files = []))
    (h5 : pdfCheck req.pdf_file = none)
    (h6 : imageCheck req.png_files = none) :
    start_interpretation req task_id (StartOutcome.dbError msg)
      = ⟨202, true, none, some task_id, some ("Group order interpretation task started successfully")⟩
    ∧ start_interpretation req task_id (StartOutcome.dbError msg)
      = start_interpretation req task_id StartOutcome.ok := by
  have hcond1 : (!(truthy req.task_name && truthy req.company && truthy req.scene)) = false := by
    rw [h1, h2, h3]; rfl
  have hcond2 : (req.pdf_file.isNone && req.png_files.isEmpty) = false := by
    cases hp : req.pdf_file with
    | some a => rfl
    | none =>
        cases hq : req.png_files with
        | nil => exact absurd ⟨hp, hq⟩ h4
        | cons a l => rfl
  constructor
  · unfold start_interpretation
    rw [hcond1, hcond2, h5, h6]
    rfl
  · unfold start_interpretation
    rw [hcond1, hcond2, h5, h6]

/-- C4 witness. -/
theorem claim_C4_witness :
    start_interpretation ⟨some "n", some "c", some "s", some ("contract.pdf"), []⟩ "T20250101AAAA"
        (StartOutcome.dbError "db down")
      = ⟨202, true, none, some "T20250101AAAA",
          some ("Group order interpretation task started successfully")⟩
    ∧ start_interpretation ⟨some "n", some "c", some "s", some ("contract.pdf"), []⟩ "T20250101AAAA"
        (StartOutcome.dbError "db down")
      = start_interpretation ⟨some "n", some "c", some "s", some ("contract.pdf"), []⟩ "T20250101AAAA"
        StartOutcome.ok :=
  claim_C4 ⟨some "n", some "c", some "s", some ("contract.pdf"), []⟩ "T20250101AAAA" "db down"
    rfl rfl rfl (by simp) (by decide) rfl

/-- C5 (corrected): an image upload failing the case-insensitive
extension check is rejected with a `400` whose message names the
offending filename, but a `pdf_file` failing the `.pdf` check is
rejected with the fixed message `Contract file must be PDF format`,
which does not name the file. -/
theorem claim_C5 (req : SubmitRequest) (task_id : String) (o : StartOutcome) (name : String) :
    (truthy req.task_name = true → truthy req.company = true → truthy req.scene = true →
      req.pdf_file = some name → pyEndsWith (pyLower name) ".pdf" = false →
      start_interpretation req task_id o
        = ⟨400, false, some ("Contract file must be PDF format"), none, none⟩)
    ∧ (truthy req.task_name = true → truthy req.company = true → truthy req.scene = true →
      pdfCheck req.pdf_file = none → req.png_files ≠ [] → req.png_files.length ≤ 30 →
      req.png_files.find? isBadImage = some name →
      start_interpretation req task_id o
        = ⟨400, false, some ("File " ++ name ++ " must be PNG, JPG, or JPEG format"), none, none⟩) := by
  constructor
  · intro h1 h2 h3 hp hext
    have hcond1 : (!(truthy req.task_name && truthy req.company && truthy req.scene)) = false := by
      rw [h1, h2, h3]; rfl
    have hcond2 : (req.pdf_file.isNone && req.png_files.isEmpty) = false := by
      rw [hp]; rfl
    have hpdf : pdfCheck (some name)
        = some ⟨400, false, some ("Contract file must be PDF format"), none, none⟩ := by
      show (if pyEndsWith (pyLower name) ".pdf" = true then none
            else some (⟨400, false, some ("Contract file must be PDF format"), none, none⟩ : ApiResponse))
          = some ⟨400, false, some ("Contract file must be PDF format"), none, none⟩
      rw [hext]
      rfl
    unfold start_interpretation
    rw [hcond1, hcond2, hp, hpdf]
    rfl
  · intro h1 h2 h3 hpdf hne hlen hfind
    have hcond1 : (!(truthy req.task_name && truthy req.company && truthy req.scene)) = false := by
      rw [h1, h2, h3]; rfl
    have hempty : req.png_files.isEmpty = false := by
      cases hq : req.png_files with
      | nil => exact absurd hq hne
      | cons a l => rfl
    have hcond2 : (req.pdf_file.isNone && req.png_files.isEmpty) = false := by
      rw [hempty]; exact Bool.and_false _
    have himg : imageCheck req.png_files
        = some ⟨400, false, some ("File " ++ name ++ " must be PNG, JPG, or JPEG format"), none, none⟩ := by
      unfold imageCheck
      rw [hempty, if_neg (by simp : ¬(false = true))]
      rw [if_neg (by omega : ¬req.png_files.length > 30), hfind]
    unfold start_interpretation
    rw [hcond1, hcond2, hpdf, himg]
    rfl

/-- C5 counterexample: two submissions that differ only in the
(non-PDF) contract filename produce the identical `400` response with
the constant message `Contract file must be PDF format`, so the error
for a rejected `pdf_file` cannot name the offending filename. -/
theorem claim_C5_counterexample :
    start_interpretation ⟨some "n", some "c", some "s", some ("evil.docx"), []⟩ "T1" StartOutcome.ok
      = start_interpretation ⟨some "n", some "c", some "s", some ("other.docx"), []⟩ "T1" StartOutcome.ok
    ∧ (start_interpretation ⟨some "n", some "c", some "s", some ("evil.docx"), []⟩ "T1"
        StartOutcome.ok).statusCode = 400
    ∧ (start_interpretation ⟨some "n", some "c", some "s", some ("evil.docx"), []⟩ "T1"
        StartOutcome.ok).error = some ("Contract file must be PDF format") :=
  ⟨rfl, rfl, rfl⟩

/-- C5 witness. -/
theorem claim_C5_witness :
    start_interpretation ⟨some "n", some "c", some "s", some ("bad.docx"), []⟩ "T1" StartOutcome.ok
      = ⟨400, false, some ("Contract file must be PDF format"), none, none⟩
    ∧ start_interpretation ⟨some "n", some "c", some "s", none, ["a.png", "b.gif"]⟩ "T1" StartOutcome.ok
      = ⟨400, false, some ("File " ++ "b.gif" ++ " must be PNG, JPG, or JPEG format"), none, none⟩ :=
  ⟨(claim_C5 ⟨some "n", some "c", some "s", some ("bad.docx"), []⟩ "T1" StartOutcome.ok "bad.docx").1
      rfl rfl rfl rfl (by decide),
   (claim_C5 ⟨some "n", some "c", some "s", none, ["a.png", "b.gif"]⟩ "T1" StartOutcome.ok "b.gif").2
      rfl rfl rfl rfl (by decide) (by decide) (by decide)⟩

/-- C3 (corrected): for a task id with no surrounding whitespace, the
start transition is idempotent — calling `handle_task_start` once or
twice, whether or not the row pre-existed (assuming the table held at
most one row for the id), leaves exactly one row with `progress = 0%`
and the pending label `解读中`. -/
theorem claim_C3 (db : List Row) (tid tn c sc : String)
    (h1 : pyStrip tid = tid) (h2 : tid ≠ "") (h3 : (rowsFor db tid).length ≤ 1) :
    ∃ db1 db2,
      FormDataService.handle_task_start db tid tn c sc = Except.ok db1
      ∧ FormDataService.handle_task_start db1 tid tn c sc = Except.ok db2
      ∧ (∃ r1, rowsFor db1 tid = [r1] ∧ r1.progress = "0%" ∧ r1.status = "解读中")
      ∧ (∃ r2, rowsFor db2 tid = [r2] ∧ r2.progress = "0%" ∧ r2.status = "解读中") := by
  have hv : pyStrip tid ≠ "" := by rw [h1]; exact h2
  cases hr : rowsFor db tid with
  | nil =>
      have e1 := handle_task_start_of_absent db tid tn c sc hv (by rw [h1]; exact hr)
      have hrows1 : rowsFor (insertFormData db tid tn c sc "0%" ("解读中") "") tid
          = [⟨tid, tn, c, sc, "0%", "解读中", "", none⟩] := by
        rw [rowsFor_insert, hr, if_pos rfl]
        rfl
      have e2 := handle_task_start_of_exists (insertFormData db tid tn c sc ("0%") ("解读中") "")
        tid tn c sc hv (by rw [h1, hrows1]; simp)
      rw [h1] at e2
      have hrows2 : rowsFor ((insertFormData db tid tn c sc "0%" ("解读中") "").map
            (setStatusRow tid tn c sc "0%" ("解读中") "")) tid
          = [⟨tid, tn, c, sc, "0%", "解读中", "", none⟩] := by
        rw [rowsFor_map_setStatusRow, hrows1, List.map_singleton,
          setStatusRow_of_match (rfl : Row.task_id ⟨tid, tn, c, sc, "0%", "解读中", "", none⟩ = tid)]
      exact ⟨_, _, e1, e2, ⟨_, hrows1, rfl, rfl⟩, ⟨_, hrows2, rfl, rfl⟩⟩
  | cons r rest =>
      have hrest : rest = [] := by
        rw [hr] at h3
        simp only [List.length_cons] at h3
        exact List.eq_nil_of_length_eq_zero (by omega)
      subst hrest
      have hrid : r.task_id = tid := by
        apply mem_rowsFor_task_id db tid
        rw [hr]; exact List.mem_singleton.mpr rfl
      have e1 := handle_task_start_of_exists db tid tn c sc hv (by rw [h1, hr]; simp)
      rw [h1] at e1
      have hrows1 : rowsFor (db.map (setStatusRow tid tn c sc "0%" ("解读中") "")) tid
          = [⟨r.task_id, tn, c, sc, "0%", "解读中", "", r.update_content⟩] := by
        rw [← h1, rowsFor_map_setStatusRow, h1, hr, List.map_singleton,
          setStatusRow_of_match hrid]
      have e2 := handle_task_start_of_exists (db.map (setStatusRow tid tn c sc "0%" ("解读中") ""))
        tid tn c sc hv (by rw [h1, hrows1]; simp)
      rw [h1] at e2
      have hrows2 : rowsFor ((db.map (setStatusRow tid tn c sc "0%" ("解读中") "")).map
            (setStatusRow tid tn c sc "0%" ("解读中") "")) tid
          = [⟨r.task_id, tn, c, sc, "0%", "解读中", "", r.update_content⟩] := by
        rw [rowsFor_map_setStatusRow, hrows1, List.map_singleton,
          setStatusRow_of_match
            (show Row.task_id ⟨r.task_id, tn, c, sc, "0%", "解读中", "", r.update_content⟩ = tid
              from hrid)]
      exact ⟨_, _, e1, e2, ⟨_, hrows1, rfl, rfl⟩, ⟨_, hrows2, rfl, rfl⟩⟩

/-- C3 counterexample: with a task id carrying surrounding whitespace
(here `" T1 "`), `handle_task_start` inserts the raw id but looks the id
up stripped, so a second identical call inserts a second row: start is
not idempotent for every task id. -/
theorem claim_C3_counterexample :
    FormDataService.handle_task_start [] " T1 " "n" "c" "s"
      = Except.ok [⟨" T1 ", "n", "c", "s", "0%", "解读中", "", none⟩]
    ∧ FormDataService.handle_task_start [⟨" T1 ", "n", "c", "s", "0%", "解读中", "", none⟩]
        " T1 " "n" "c" "s"
      = Except.ok [⟨" T1 ", "n", "c", "s", "0%", "解读中", "", none⟩,
          ⟨" T1 ", "n", "c", "s", "0%", "解读中", "", none⟩]
    ∧ (rowsFor [⟨" T1 ", "n", "c", "s", "0%", "解读中", "", none⟩,
          ⟨" T1 ", "n", "c", "s", "0%", "解读中", "", none⟩] " T1 ").length = 2 := by
  exact ⟨rfl, rfl, rfl⟩

/-- C3 witness. -/
theorem claim_C3_witness :
    ∃ db1 db2,
      FormDataService.handle_task_start [] "T1" "n" "c" "s" = Except.ok db1
      ∧ FormDataService.handle_task_start db1 "T1" "n" "c" "s" = Except.ok db2
      ∧ (∃ r1, rowsFor db1 "T1" = [r1] ∧ r1.progress = "0%" ∧ r1.status = "解读中")
      ∧ (∃ r2, rowsFor db2 "T1" = [r2] ∧ r2.progress = "0%" ∧ r2.status = "解读中") :=
  claim_C3 [] "T1" "n" "c" "s" (by decide) (by decide) (by decide)

lemma filter_or_disjoint_length {α : Type} (l : List α) (p q : α → Bool)
    (h : ∀ x ∈ l, ¬(p x = true ∧ q x = true)) :
    (l.filter fun x => p x || q x).length = (l.filter p).length + (l.filter q).length := by
  induction l with
  | nil => rfl
  | cons a l ih =>
      have ha := h a (List.mem_cons_self a l)
      have hl : ∀ x ∈ l, ¬(p x = true ∧ q x = true) :=
        fun x hx => h x (List.mem_cons_of_mem a hx)
      by_cases hpa : p a = true
      · have hqa : q a = false := by
          cases hq : q a
          · rfl
          · exact absurd ⟨hpa, hq⟩ ha
        simp only [List.filter_cons, hpa, hqa, Bool.true_or, if_pos rfl]
        simp [ih hl]
        omega
      · have hpa' : p a = false := by
          cases hp : p a
          · rfl
          · exact absurd hp hpa
        by_cases hqa : q a = true
        · simp [List.filter_cons, hpa', hqa, ih hl]
          omega
        · have hqa' : q a = false := by
            cases hq : q a
            · rfl
            · exact absurd hq hqa
          simp [List.filter_cons, hpa', hqa', ih hl]

lemma filter_length_nodup (db : List Row) (t : String)
    (hdb : (db.map Row.task_id).Nodup) :
    (db.filter fun r => r.task_id == t).length
      = if db.any (fun r => r.task_id == t) then 1 else 0 := by
  induction db with
  | nil => rfl
  | cons r db ih =>
      rw [List.map_cons, List.nodup_cons] at hdb
      obtain ⟨hnotin, hnd⟩ := hdb
      by_cases hrt : (r.task_id == t) = true
      · have ht : r.task_id = t := beq_iff_eq.mp hrt
        have hzero : (db.filter fun r0 => r0.task_id == t) = [] := by
          rw [List.filter_eq_nil_iff]
          intro r0 hr0 hpr0
          apply hnotin
          have hmem : r0.task_id ∈ db.map Row.task_id := List.mem_map_of_mem Row.task_id hr0
          rw [beq_iff_eq.mp hpr0, ← ht] at hmem
          exact hmem
        simp [List.filter_cons, List.any_cons, hrt, hzero]
      · have hrt' : (r.task_id == t) = false := by
          cases h0 : (r.task_id == t)
          · rfl
          · exact absurd h0 hrt
        simp [List.filter_cons, List.any_cons, hrt', ih hnd]

lemma count_matched (db : List Row) (ids : List String)
    (hdb : (db.map Row.task_id).Nodup) (hids : ids.Nodup) :
    (db.filter fun r => ids.contains r.task_id).length
      = (ids.filter fun t => db.any fun r => r.task_id == t).length := by
  induction ids with
  | nil => simp
  | cons t ids ih =>
      rw [List.nodup_cons] at hids
      obtain ⟨hnotin, hnd⟩ := hids
      have hpred : (fun r : Row => (t :: ids).contains r.task_id)
          = fun r : Row => ((r.task_id == t) || ids.contains r.task_id) := by
        funext r
        rfl
      rw [hpred]
      rw [filter_or_disjoint_length db _ _ ?disj]
      case disj =>
        intro r _ hconj
        obtain ⟨hp, hq⟩ := hconj
        apply hnotin
        have : r.task_id ∈ ids := by
          simpa using hq
        rwa [beq_iff_eq.mp hp] at this
      rw [filter_length_nodup db t hdb, ih hnd]
      by_cases hany : (db.any fun r => r.task_id == t) = true
      · simp [List.filter_cons, hany]
        omega
      · have hany' : (db.any fun r => r.task_id == t) = false := by
          cases h0 : (db.any fun r => r.task_id == t)
          · rfl
          · exact absurd h0 hany
        simp [List.filter_cons, hany']

lemma validIds_eq_self {ids : List String} (h : ∀ t ∈ ids, pyStrip t = t ∧ t ≠ "") :
    FormDataService.validIds ids = ids := by
  induction ids with
  | nil => rfl
  | cons t ids ih =>
      obtain ⟨ht1, ht2⟩ := h t (List.mem_cons_self t ids)
      rw [validIds_cons_valid (by rw [ht1]; exact ht2) ids, ht1,
        ih (fun u hu => h u (List.mem_cons_of_mem t hu))]

/-- C8 (confirmed): for a batch-delete request over pairwise-distinct,
well-formed ids against a table whose task ids are unique, the reported
affected-row count is exactly the number of requested ids present in
the table, and the remaining table consists exactly of the rows whose
task id was not requested. -/
theorem claim_C8 (db : List Row) (ids : List String)
    (hvalid : ∀ t ∈ ids, pyStrip t = t ∧ t ≠ "")
    (hids : ids.Nodup)
    (hdb : (db.map Row.task_id).Nodup)
    (hne : ids ≠ []) :
    (FormDataService.delete_forms_batch db ids).snd
        = (ids.filter fun t => db.any fun r => r.task_id == t).length
    ∧ (FormDataService.delete_forms_batch db ids).fst
        = db.filter fun r => !(ids.contains r.task_id) := by
  have hbatch : FormDataService.delete_forms_batch db ids = deleteFormBatch db ids := by
    unfold FormDataService.delete_forms_batch
    rw [if_neg hne, validIds_eq_self hvalid, if_neg hne]
  rw [hbatch]
  exact ⟨count_matched db ids hdb hids, rfl⟩

/-- C8 witness: two-row table, one existing id plus one nonexistent id
in the request; the count is 1 and only the matching row is removed. -/
theorem claim_C8_witness :
    (FormDataService.delete_forms_batch
        [⟨"T1", "n", "c", "s", "0%", "解读中", "", none⟩,
         ⟨"T2", "n", "c", "s", "0%", "解读中", "", none⟩] ["T1", "T9"]).snd
      = ((["T1", "T9"].filter fun t =>
            [⟨"T1", "n", "c", "s", "0%", "解读中", "", none⟩,
             (⟨"T2", "n", "c", "s", "0%", "解读中", "", none⟩ : Row)].any
              fun r => r.task_id == t)).length
    ∧ (FormDataService.delete_forms_batch
        [⟨"T1", "n", "c", "s", "0%", "解读中", "", none⟩,
         ⟨"T2", "n", "c", "s", "0%", "解读中", "", none⟩] ["T1", "T9"]).fst
      = [⟨"T1", "n", "c", "s", "0%", "解读中", "", none⟩,
         (⟨"T2", "n", "c", "s", "0%", "解读中", "", none⟩ : Row)].filter
          fun r => !(["T1", "T9"].contains r.task_id) :=
  claim_C8
    [⟨"T1", "n", "c", "s", "0%", "解读中", "", none⟩,
     ⟨"T2", "n", "c", "s", "0%", "解读中", "", none⟩] ["T1", "T9"]
    (by decide) (by decide) (by decide) (by decide)

/-- C6 (confirmed): a worker attempt that faults at step `s` first
applies the error transition at that step's progress percentage (the row
for the task ends up `status = 失败, progress = pct s`, created if it
was missing), and then schedules a retry with countdown
`60 * 2 ^ retries` exactly when the attempt count is below the retry
ceiling `max_retries = 3`; at the ceiling no retry is scheduled and the
failure is final. -/
theorem claim_C6 (db : List Row) (retries : Nat) (tid tn c sc res : String) (s : Nat)
    (h1 : pyStrip tid = tid) (h2 : tid ≠ "") (hs1 : 1 ≤ s) (hs10 : s ≤ 10)
    (h3 : (rowsFor db tid).length ≤ 1) :
    ∃ db' tr,
      process_interpretation_task db retries tid tn c sc res (some s)
        = Except.ok (db',
            (if retries < maxRetries then WorkerAction.retryScheduled (60 * 2 ^ retries)
             else WorkerAction.finalFailure), tr)
      ∧ ∃ r, rowsFor db' tid = [r] ∧ r.status = "失败" ∧ r.progress = pct s := by
  have hv : pyStrip tid ≠ "" := by rw [h1]; exact h2
  cases hr : rowsFor db tid with
  | nil =>
      have hrun := runProgressSteps_of_absent db tid tn c sc hv (by rw [h1]; exact hr) s
      have herr := handle_task_error_of_absent db tid tn c sc (pct s) hv (by rw [h1]; exact hr)
      refine ⟨insertFormData db tid tn c sc (pct s) ("失败") "",
        (List.range s).map (fun i => pct (i + 1)), ?_, ?_⟩
      · simp only [process_interpretation_task]
        rw [hrun, exceptBind_ok]
        simp only
        rw [herr, exceptBind_ok]
        by_cases hlt : retries < maxRetries
        · rw [if_pos hlt, if_pos hlt]
        · rw [if_neg hlt, if_neg hlt]
      · refine ⟨⟨tid, tn, c, sc, pct s, "失败", "", none⟩, ?_, rfl, rfl⟩
        rw [rowsFor_insert, hr, if_pos rfl]
        rfl
  | cons r rest =>
      have hrest : rest = [] := by
        rw [hr] at h3
        simp only [List.length_cons] at h3
        exact List.eq_nil_of_length_eq_zero (by omega)
      subst hrest
      have hrid : r.task_id = tid := by
        apply mem_rowsFor_task_id db tid
        rw [hr]; exact List.mem_singleton.mpr rfl
      obtain ⟨db1, hrun, hrows1⟩ :=
        runProgressSteps_of_single db tid tn c sc r hv (by rw [h1]; exact hr) s
      rw [h1] at hrows1
      have herr := handle_task_error_of_exists db1 tid tn c sc (pct s) hv
        (by rw [h1, hrows1]; simp)
      rw [h1] at herr
      have hsid : (stepRow tn c sc r s).task_id = tid := by
        unfold stepRow; split <;> simpa using hrid
      refine ⟨db1.map (setStatusRow tid tn c sc (pct s) ("失败") ""),
        (List.range s).map (fun i => pct (i + 1)), ?_, ?_⟩
      · simp only [process_interpretation_task]
        rw [hrun, exceptBind_ok]
        simp only
        rw [herr, exceptBind_ok]
        by_cases hlt : retries < maxRetries
        · rw [if_pos hlt, if_pos hlt]
        · rw [if_neg hlt, if_neg hlt]
      · have hrows2 : rowsFor (db1.map (setStatusRow tid tn c sc (pct s) ("失败") "")) tid
            = [⟨(stepRow tn c sc r s).task_id, tn, c, sc, pct s, "失败", "",
                (stepRow tn c sc r s).update_content⟩] := by
          rw [rowsFor_map_setStatusRow, hrows1, List.map_singleton, setStatusRow_of_match hsid]
        exact ⟨_, hrows2, rfl, rfl⟩

/-- C6 witness. -/
theorem claim_C6_witness :
    ∃ db' tr,
      process_interpretation_task [⟨"T1", "n", "c", "s", "0%", "解读中", "", none⟩]
          3 "T1" "n" "c" "s" "res" (some 3)
        = Except.ok (db',
            (if 3 < maxRetries then WorkerAction.retryScheduled (60 * 2 ^ 3)
             else WorkerAction.finalFailure), tr)
      ∧ ∃ r, rowsFor db' "T1" = [r] ∧ r.status = "失败" ∧ r.progress = pct 3 :=
  claim_C6 [⟨"T1", "n", "c", "s", "0%", "解读中", "", none⟩] 3 "T1" "n" "c" "s" "res" 3
    (by decide) (by decide) (by decide) (by decide) (by decide)

lemma trace_getLast (k : Nat) (hk : 1 ≤ k) :
    ((List.range k).map fun i => pct (i + 1)).getLast? = some (pct k) := by
  cases k with
  | zero => omega
  | succ n =>
      rw [List.range_succ, List.map_append]
      simp

/-- C9 (confirmed): within one worker attempt the progress strings
reported through `handle_task_progress` are non-decreasing; a clean run
reports `100%` last (and leaves an existing unique row at
`progress = 100%, status = 完成`), and a faulted run persists, as the
row's final progress, exactly the last reported value. -/
theorem claim_C9 (db : List Row) (tid tn c sc res : String)
    (h1 : pyStrip tid = tid) (h2 : tid ≠ "") (h3 : (rowsFor db tid).length ≤ 1) :
    (∀ retries db' tr,
        process_interpretation_task db retries tid tn c sc res none
          = Except.ok (db', WorkerAction.completed, tr) →
        nonDecreasing (tr.map pctToNat) = true
        ∧ tr.getLast? = some ("100%")
        ∧ ∀ r0, rowsFor db tid = [r0] →
            ∃ r', rowsFor db' tid = [r'] ∧ r'.progress = "100%" ∧ r'.status = "完成")
    ∧ (∀ s, 1 ≤ s → s ≤ 10 →
        ∀ retries db' act tr,
          process_interpretation_task db retries tid tn c sc res (some s)
            = Except.ok (db', act, tr) →
          nonDecreasing (tr.map pctToNat) = true
          ∧ ∃ r', rowsFor db' tid = [r'] ∧ tr.getLast? = some r'.progress) := by
  have hv : pyStrip tid ≠ "" := by rw [h1]; exact h2
  constructor
  · intro retries db' tr heq
    cases hr : rowsFor db tid with
    | nil =>
        have hrun := runProgressSteps_of_absent db tid tn c sc hv (by rw [h1]; exact hr) 10
        have hsucc := handle_task_success_of_valid db tid tn c sc res hv
        rw [h1] at hsucc
        have hproc : process_interpretation_task db retries tid tn c sc res none
            = Except.ok (db, WorkerAction.completed, (List.range 10).map fun i => pct (i + 1)) := by
          simp only [process_interpretation_task]
          rw [hrun, exceptBind_ok]
          simp only
          rw [hsucc, exceptBind_ok, map_setStatusRow_of_rowsFor_nil hr]
        rw [hproc] at heq
        simp only [Except.ok.injEq, Prod.mk.injEq, true_and] at heq
        obtain ⟨hdb', htr⟩ := heq
        subst hdb'
        subst htr
        refine ⟨by decide, by decide, ?_⟩
        intro r0 hr0
        exact absurd hr0 (by simp)
    | cons r rest =>
        have hrest : rest = [] := by
          rw [hr] at h3
          simp only [List.length_cons] at h3
          exact List.eq_nil_of_length_eq_zero (by omega)
        subst hrest
        have hrid : r.task_id = tid := by
          apply mem_rowsFor_task_id db tid
          rw [hr]; exact List.mem_singleton.mpr rfl
        obtain ⟨db1, hrun, hrows1⟩ :=
          runProgressSteps_of_single db tid tn c sc r hv (by rw [h1]; exact hr) 10
        rw [h1] at hrows1
        have hsucc := handle_task_success_of_valid db1 tid tn c sc res hv
        rw [h1] at hsucc
        have hproc : process_interpretation_task db retries tid tn c sc res none
            = Except.ok (db1.map (setStatusRow tid tn c sc "100%" ("完成") res),
                WorkerAction.completed, (List.range 10).map fun i => pct (i + 1)) := by
          simp only [process_interpretation_task]
          rw [hrun, exceptBind_ok]
          simp only
          rw [hsucc, exceptBind_ok]
        rw [hproc] at heq
        simp only [Except.ok.injEq, Prod.mk.injEq, true_and] at heq
        obtain ⟨hdb', htr⟩ := heq
        subst hdb'
        subst htr
        refine ⟨by decide, by decide, ?_⟩
        intro r0 hr0
        have hsid : (stepRow tn c sc r 10).task_id = tid := by
          unfold stepRow; split <;> simpa using hrid
        have hrows2 : rowsFor (db1.map (setStatusRow tid tn c sc "100%" ("完成") res)) tid
            = [⟨(stepRow tn c sc r 10).task_id, tn, c, sc, "100%", "完成", res,
                (stepRow tn c sc r 10).update_content⟩] := by
          rw [rowsFor_map_setStatusRow, hrows1, List.map_singleton, setStatusRow_of_match hsid]
        exact ⟨_, hrows2, rfl, rfl⟩
  · intro s hs1 hs10 retries db' act tr heq
    cases hr : rowsFor db tid with
    | nil =>
        have hrun := runProgressSteps_of_absent db tid tn c sc hv (by rw [h1]; exact hr) s
        have herr := handle_task_error_of_absent db tid tn c sc (pct s) hv (by rw [h1]; exact hr)
        have hproc : process_interpretation_task db retries tid tn c sc res (some s)
            = Except.ok (insertFormData db tid tn c sc (pct s) ("失败") "",
                (if retries < maxRetries then WorkerAction.retryScheduled (60 * 2 ^ retries)
                 else WorkerAction.finalFailure),
                (List.range s).map fun i => pct (i + 1)) := by
          simp only [process_interpretation_task]
          rw [hrun, exceptBind_ok]
          simp only
          rw [herr, exceptBind_ok]
          by_cases hlt : retries < maxRetries
          · rw [if_pos hlt, if_pos hlt]
          · rw [if_neg hlt, if_neg hlt]
        rw [hproc] at heq
        simp only [Except.ok.injEq, Prod.mk.injEq] at heq
        obtain ⟨hdb', _, htr⟩ := heq
        subst hdb'
        subst htr
        constructor
        · interval_cases s <;> decide
        · refine ⟨⟨tid, tn, c, sc, pct s, "失败", "", none⟩, ?_, ?_⟩
          · rw [rowsFor_insert, hr, if_pos rfl]
            rfl
          · exact trace_getLast s hs1
    | cons r rest =>
        have hrest : rest = [] := by
          rw [hr] at h3
          simp only [List.length_cons] at h3
          exact List.eq_nil_of_length_eq_zero (by omega)
        subst hrest
        have hrid : r.task_id = tid := by
          apply mem_rowsFor_task_id db tid
          rw [hr]; exact List.mem_singleton.mpr rfl
        obtain ⟨db1, hrun, hrows1⟩ :=
          runProgressSteps_of_single db tid tn c sc r hv (by rw [h1]; exact hr) s
        rw [h1] at hrows1
        have herr := handle_task_error_of_exists db1 tid tn c sc (pct s) hv
          (by rw [h1, hrows1]; simp)
        rw [h1] at herr
        have hsid : (stepRow tn c sc r s).task_id = tid := by
          unfold stepRow; split <;> simpa using hrid
        have hproc : process_interpretation_task db retries tid tn c sc res (some s)
            = Except.ok (db1.map (setStatusRow tid tn c sc (pct s) ("失败") ""),
                (if retries < maxRetries then WorkerAction.retryScheduled (60 * 2 ^ retries)
                 else WorkerAction.finalFailure),
                (List.range s).map fun i => pct (i + 1)) := by
          simp only [process_interpretation_task]
          rw [hrun, exceptBind_ok]
          simp only
          rw [herr, exceptBind_ok]
          by_cases hlt : retries < maxRetries
          · rw [if_pos hlt, if_pos hlt]
          · rw [if_neg hlt, if_neg hlt]
        rw [hproc] at heq
        simp only [Except.ok.injEq, Prod.mk.injEq] at heq
        obtain ⟨hdb', _, htr⟩ := heq
        subst hdb'
        subst htr
        constructor
        · interval_cases s <;> decide
        · have hrows2 : rowsFor (db1.map (setStatusRow tid tn c sc (pct s) ("失败") "")) tid
              = [⟨(stepRow tn c sc r s).task_id, tn, c, sc, pct s, "失败", "",
                  (stepRow tn c sc r s).update_content⟩] := by
            rw [rowsFor_map_setStatusRow, hrows1, List.map_singleton, setStatusRow_of_match hsid]
          exact ⟨_, hrows2, trace_getLast s hs1⟩

/-- C9 witness. -/
theorem claim_C9_witness :
    (∀ retries db' tr,
        process_interpretation_task [⟨"T1", "n", "c", "s", "0%", "解读中", "", none⟩]
            retries "T1" "n" "c" "s" "res" none
          = Except.ok (db', WorkerAction.completed, tr) →
        nonDecreasing (tr.map pctToNat) = true
        ∧ tr.getLast? = some ("100%")
        ∧ ∀ r0, rowsFor [⟨"T1", "n", "c", "s", "0%", "解读中", "", none⟩] "T1" = [r0] →
            ∃ r', rowsFor db' "T1" = [r'] ∧ r'.progress = "100%" ∧ r'.status = "完成")
    ∧ (∀ s, 1 ≤ s → s ≤ 10 →
        ∀ retries db' act tr,
          process_interpretation_task [⟨"T1", "n", "c", "s", "0%", "解读中", "", none⟩]
              retries "T1" "n" "c" "s" "res" (some s)
            = Except.ok (db', act, tr) →
          nonDecreasing (tr.map pctToNat) = true
          ∧ ∃ r', rowsFor db' "T1" = [r'] ∧ tr.getLast? = some r'.progress) :=
  claim_C9 [⟨"T1", "n", "c", "s", "0%", "解读中", "", none⟩] "T1" "n" "c" "s" "res"
    (by decide) (by decide) (by decide)
